import Mathlib

/-!
Shallow embedding of the workflow graph engine of this repository
(src/src/graphs/workflow.py and src/src/graphs/workflow_executor.py),
together with theorems about the spec's claims.

Modelling conventions:
* Python dicts are insertion-ordered association lists; reading is
  dictGet and writing is dictInsert (an existing key keeps its position
  and is overwritten, a new key is appended), matching CPython.
* Python exceptions are the RunError sum below; every constructor names
  the concrete exception site in the source it stands for.
* The chat-completion collaborator (chat_model.invoke(prompt).content)
  is an injected function from prompt to reply.
* The langgraph run loop (StateGraph.compile / ainvoke) is modelled as a
  fuel-bounded step loop over the routing structure that
  WorkflowExecutor.build registers: one superstep runs the handler of
  the current node, then the successor is the conditional path selected
  by should_continue for a source with tagged edges, else the first
  untagged edge, and the run stops after the finish node; exhausting the
  recursion limit is GraphRecursionError.
-/

namespace MxAgent

/-- Runtime values the executor handles: the subset of Python values
that can appear as literals, node outputs or the implicit None. -/
inductive Value where
  | str (s : String)
  | int (n : Int)
  | bool (b : Bool)
  | none
deriving DecidableEq, Repr

/-- Errors a build or run can surface. Each constructor models one
concrete Python exception raised by the source:
unresolvedReference is the KeyError from reading a missing
node or output name out of state.node_outputs; typeMismatch covers
TypeError and ValueError from len, int conversion or string join on an
unsuitable value; structuralError is the StopIteration of the
next calls that locate the Start and End nodes; valueError is the
ValueError of create_node_handler on an unsupported node type;
routingError is the failure when a routing tag is absent from a
conditional path map; recursionLimit is GraphRecursionError;
missingNode is get_node_by_id returning None; keyError is the KeyError
from reading the question out of the run inputs. -/
inductive RunError where
  | unresolvedReference
  | typeMismatch
  | structuralError
  | valueError
  | routingError
  | recursionLimit
  | missingNode
  | keyError
deriving DecidableEq, Repr

/-- Read from an insertion-ordered association list (Python dict read). -/
def dictGet {α : Type} (l : List (String × α)) (k : String) : Option α :=
  match l with
  | [] => Option.none
  | (k', v) :: rest => if k' = k then some v else dictGet rest k

/-- Write to an insertion-ordered association list (Python dict write):
an existing key keeps its position and gets the new value, a new key is
appended at the end. -/
def dictInsert {α : Type} (l : List (String × α)) (k : String) (v : α) : List (String × α) :=
  match l with
  | [] => [(k, v)]
  | (k', v') :: rest => if k' = k then (k, v) :: rest else (k', v') :: dictInsert rest k v

/-- ValueContent of workflow.py as the executor reads it: the type tag
selects either the literal content or the blockID and output name of a
reference. -/
inductive ValueSpec where
  | literal (v : Value)
  | ref (blockID : String) (name : String)
deriving DecidableEq, Repr

/-- Whether a value spec is a reference. -/
def ValueSpec.isRef : ValueSpec → Bool
  | .literal _ => false
  | .ref _ _ => true

/-- InputValue of workflow.py: a declared type string plus the value. -/
structure InputValue where
  type : String := "string"
  value : ValueSpec
deriving DecidableEq, Repr

/-- InputParameter of workflow.py: a parameter name plus its input. -/
structure InputParameter where
  name : String
  input : InputValue
deriving DecidableEq, Repr

/-- Condition of workflow.py: left and right operand dicts plus an
integer operator code. -/
structure Condition where
  left : List (String × InputValue)
  operator : Int
  right : List (String × InputValue)
deriving DecidableEq, Repr

/-- ConditionConfig of workflow.py: the comparisons of one group plus
the logic operator, which the executor never reads. -/
structure ConditionConfig where
  conditions : List Condition
  logic : Int := 1
deriving DecidableEq, Repr

/-- Branch of workflow.py: one condition group. -/
structure Branch where
  condition : ConditionConfig
deriving DecidableEq, Repr

/-- NodeInputs of workflow.py restricted to the fields the executor
reads; a missing field is the empty list, as with dict.get defaults. -/
structure NodeInputs where
  inputParameters : List InputParameter := []
  branches : List Branch := []
deriving DecidableEq, Repr

/-- NodeData of workflow.py restricted to the inputs field; outputs,
trigger parameters and version are never read by the executor. -/
structure NodeData where
  inputs : NodeInputs := {}
deriving DecidableEq, Repr

/-- Node of workflow.py; meta, blocks and node-level edges are opaque
display data the executor never reads, so they are omitted. The type
field holds the NodeType enum value: Start is the string one, End two,
LLM three, KB four, Condition eight. -/
structure Node where
  data : NodeData
  id : String
  type : String
deriving DecidableEq, Repr

/-- Edge of workflow.py: an empty sourcePortID means an untagged edge. -/
structure Edge where
  sourceNodeID : String
  targetNodeID : String
  sourcePortID : String := ""
deriving DecidableEq, Repr

/-- Workflow of workflow.py. -/
structure Workflow where
  nodes : List Node
  edges : List Edge
  versions : List (String × String) := []
deriving DecidableEq, Repr

/-- WorkflowJson of workflow.py: the already-parsed graph description. -/
structure WorkflowJson where
  nodes : List Node
  edges : List Edge
  versions : List (String × String) := []
deriving DecidableEq, Repr

/-- create_workflow_from_json of workflow.py: repackages the parsed
description into a Workflow; it performs no validation. -/
def create_workflow_from_json (j : WorkflowJson) : Workflow :=
  { nodes := j.nodes, edges := j.edges, versions := j.versions }

/-- Workflow.get_node_by_id: the first node with the given id, if any. -/
def getNodeById (w : Workflow) (nodeId : String) : Option Node :=
  w.nodes.find? (fun n => n.id == nodeId)

/-- Workflow.validate: true when some node has the Start type and some
node has the End type. -/
def validate (w : Workflow) : Bool :=
  (w.nodes.any (fun n => n.type == "1")) && (w.nodes.any (fun n => n.type == "2"))

/-- NodeOutput of workflow_executor.py: a value plus its type string. -/
structure NodeOutput where
  value : Value
  type : String
deriving DecidableEq, Repr

/-- WorkflowState of workflow_executor.py. The condition_result key is
absent until a Condition handler first writes it, hence the Option. -/
structure WorkflowState where
  node_outputs : List (String × List (String × NodeOutput))
  current_node : String
  final_output : Value
  condition_result : Option String
deriving DecidableEq, Repr

/-- The chained store read state.node_outputs of a source node and an
output name; a missing key at either level is a KeyError. -/
def getValue (store : List (String × List (String × NodeOutput)))
    (nodeId outputName : String) : Except RunError Value :=
  match dictGet store nodeId with
  | Option.none => .error .unresolvedReference
  | some outs =>
    match dictGet outs outputName with
    | Option.none => .error .unresolvedReference
    | some o => .ok o.value

/-- Resolve one input value as the handler loops do: a ref reads the
store, a literal is returned unchanged. -/
def resolveInput (iv : InputValue) (st : WorkflowState) : Except RunError Value :=
  match iv.value with
  | .ref blockID nm => getValue st.node_outputs blockID nm
  | .literal v => .ok v

/-- The loop of _handle_llm_node that builds the inputs dict, in
parameter order, with exceptions propagating from the first failing
resolution. -/
def resolveParams (params : List InputParameter) (st : WorkflowState)
    (acc : List (String × Value)) : Except RunError (List (String × Value)) :=
  match params with
  | [] => .ok acc
  | p :: rest =>
    match resolveInput p.input st with
    | .error e => .error e
    | .ok v => resolveParams rest st (dictInsert acc p.name v)

/-- Python empty-string join over the inputs dict values: every value
must be a string, otherwise join raises TypeError. -/
def joinValues : List Value → Except RunError String
  | [] => .ok ""
  | .str s :: rest =>
    match joinValues rest with
    | .error e => .error e
    | .ok r => .ok (s ++ r)
  | _ :: _ => .error .typeMismatch

/-- WorkflowExecutor._handle_llm_node, with the chat collaborator
injected: resolve all input parameters, join their values into one
prompt, call the collaborator, and write the reply into the store under
the node id as the output named output, overwriting any existing entry
for that id as Python dict assignment does. -/
def handle_llm_node (chat : String → String) (node : Node) (st : WorkflowState) :
    Except RunError WorkflowState :=
  match resolveParams node.data.inputs.inputParameters st [] with
  | .error e => .error e
  | .ok inputs =>
    match joinValues (inputs.map Prod.snd) with
    | .error e => .error e
    | .ok input_str =>
      let out : NodeOutput := { value := Value.str (chat input_str), type := "string" }
      .ok { st with node_outputs := dictInsert st.node_outputs node.id [("output", out)] }

/-- Python len for the values the comparator can see: only strings have
a length here, anything else is a TypeError. -/
def lengthOf : Value → Except RunError Int
  | .str s => .ok (Int.ofNat s.length)
  | _ => .error .typeMismatch

/-- Python int conversion for the values the comparator can see. -/
def toIntVal : Value → Except RunError Int
  | .int n => .ok n
  | .bool b => .ok (if b then 1 else 0)
  | .str s =>
    match s.toInt? with
    | some n => .ok n
    | Option.none => .error .typeMismatch
  | .none => .error .typeMismatch

/-- Python equality on these values; as in Python, booleans compare
equal to the integers zero and one. -/
def valueEq : Value → Value → Bool
  | .str a, .str b => a == b
  | .int a, .int b => a == b
  | .bool a, .bool b => a == b
  | .bool a, .int b => (if a then (1 : Int) else 0) == b
  | .int a, .bool b => a == (if b then (1 : Int) else 0)
  | .none, .none => true
  | _, _ => false

/-- WorkflowExecutor._compare_values: operator one is equality, two is
inequality, three is length greater than, four is length less than;
any other operator code yields false. -/
def compare_values (left : Value) (operator : Int) (right : Value) :
    Except RunError Bool :=
  if operator = 1 then .ok (valueEq left right)
  else if operator = 2 then .ok (!(valueEq left right))
  else if operator = 3 then
    match lengthOf left with
    | .error e => .error e
    | .ok n =>
      match toIntVal right with
      | .error e => .error e
      | .ok m => .ok (decide (n > m))
  else if operator = 4 then
    match lengthOf left with
    | .error e => .error e
    | .ok n =>
      match toIntVal right with
      | .error e => .error e
      | .ok m => .ok (decide (n < m))
  else .ok false

/-- WorkflowExecutor._get_condition_value: returns on the first item of
the operand dict; for an empty dict Python falls off the loop and
returns None. -/
def get_condition_value (valueDict : List (String × InputValue)) (st : WorkflowState) :
    Except RunError Value :=
  match valueDict with
  | [] => .ok Value.none
  | (_, iv) :: _ =>
    match iv.value with
    | .ref blockID nm => getValue st.node_outputs blockID nm
    | .literal v => .ok v

/-- Record the condition routing tag in the state. -/
def setTag (st : WorkflowState) (t : String) : WorkflowState :=
  { st with condition_result := some t }

/-- One comparison of the condition loop: resolve the left operand, then
the right operand, then compare. -/
def evalCondition (c : Condition) (st : WorkflowState) : Except RunError Bool :=
  match get_condition_value c.left st with
  | .error e => .error e
  | .ok l =>
    match get_condition_value c.right st with
    | .error e => .error e
    | .ok r => compare_values l c.operator r

/-- The comparison loop of _handle_condition_node: the first satisfied
comparison sets the tag to true and stops; if none is satisfied the tag
is false; a failing resolution or comparison propagates its error. -/
def evalConditions (conds : List Condition) (st : WorkflowState) :
    Except RunError WorkflowState :=
  match conds with
  | [] => .ok (setTag st "false")
  | c :: rest =>
    match evalCondition c st with
    | .error e => .error e
    | .ok true => .ok (setTag st "true")
    | .ok false => evalConditions rest st

/-- WorkflowExecutor._handle_condition_node: with no branches the tag is
set to true; otherwise only the first branch is consulted and its
comparisons are evaluated in order. -/
def handle_condition_node (node : Node) (st : WorkflowState) :
    Except RunError WorkflowState :=
  match node.data.inputs.branches with
  | [] => .ok (setTag st "true")
  | b :: _ => evalConditions b.condition.conditions st

/-- WorkflowExecutor._handle_start_node: returns the state unchanged
(the output-seeding block in the source is commented out). -/
def handle_start_node (st : WorkflowState) : Except RunError WorkflowState :=
  .ok st

/-- The parameter loop of _handle_end_node: the first ref parameter sets
final_output to its resolved value and breaks; literal parameters are
skipped and set nothing. -/
def endLoop (params : List InputParameter) (st : WorkflowState) :
    Except RunError WorkflowState :=
  match params with
  | [] => .ok st
  | p :: rest =>
    match p.input.value with
    | .ref blockID nm =>
      match getValue st.node_outputs blockID nm with
      | .error e => .error e
      | .ok v => .ok { st with final_output := v }
    | .literal _ => endLoop rest st

/-- WorkflowExecutor._handle_end_node. -/
def handle_end_node (node : Node) (st : WorkflowState) : Except RunError WorkflowState :=
  endLoop node.data.inputs.inputParameters st

/-- The query-building loop of _handle_kb_node: every ref parameter is
resolved in turn and the last one wins; literal parameters are ignored
and the query starts as the empty string. -/
def kbQuery (params : List InputParameter) (st : WorkflowState) (q : Value) :
    Except RunError Value :=
  match params with
  | [] => .ok q
  | p :: rest =>
    match p.input.value with
    | .ref blockID nm =>
      match getValue st.node_outputs blockID nm with
      | .error e => .error e
      | .ok v => kbQuery rest st v
    | .literal _ => kbQuery rest st q

/-- The hard-coded placeholder string _handle_kb_node stores as the
retrieved context, regardless of the query. -/
def kbPlaceholder : String := "这里是从知识库检索到的相关内容..."

/-- WorkflowExecutor._handle_kb_node: builds the query, then writes the
placeholder string into the store under the node id as the output named
context; no retrieval collaborator is invoked in the source. -/
def handle_kb_node (node : Node) (st : WorkflowState) : Except RunError WorkflowState :=
  match kbQuery node.data.inputs.inputParameters st (Value.str "") with
  | .error e => .error e
  | .ok _ =>
    let out : NodeOutput := { value := Value.str kbPlaceholder, type := "string" }
    .ok { st with node_outputs := dictInsert st.node_outputs node.id [("context", out)] }

/-- WorkflowExecutor.should_continue: the stored condition_result, with
the Python dict.get default of false when the key is absent. -/
def should_continue (st : WorkflowState) : String :=
  st.condition_result.getD "false"

/-- The routing structure WorkflowExecutor.build registers with the
state graph: tagged edges grouped by source node, untagged edges, and
the entry and finish node ids. -/
structure CompiledGraph where
  condition_edges : List (String × List (String × String))
  normal_edges : List Edge
  entry : String
  finish : String
deriving DecidableEq, Repr

/-- The node types create_node_handler accepts; any other type raises
ValueError when build registers the handlers. -/
def supportedType (t : String) : Bool :=
  t == "1" || t == "2" || t == "3" || t == "4" || t == "8"

/-- The handler-registration loop of build: the first unsupported node
type raises ValueError. -/
def checkNodeTypes : List Node → Except RunError Unit
  | [] => .ok ()
  | n :: rest => if supportedType n.type then checkNodeTypes rest else .error .valueError

/-- One step of the condition-edge collection loop in build: a tagged
edge is grouped under its source node, a later edge with the same source
and tag overwriting an earlier one. -/
def addCondEdge (acc : List (String × List (String × String))) (e : Edge) :
    List (String × List (String × String)) :=
  if e.sourcePortID == "" then acc
  else
    dictInsert acc e.sourceNodeID
      (dictInsert ((dictGet acc e.sourceNodeID).getD []) e.sourcePortID e.targetNodeID)

/-- The condition-edge collection loop of build. -/
def collectConditionEdges (edges : List Edge) : List (String × List (String × String)) :=
  edges.foldl addCondEdge []

/-- WorkflowExecutor.build: register the handlers (an unsupported node
type raises ValueError), split tagged from untagged edges, and locate
the entry and finish nodes with next over the node list, whose
StopIteration on a missing Start or End node is modelled as
structuralError. No routing-tag coverage check is performed. -/
def build (w : Workflow) : Except RunError CompiledGraph :=
  match checkNodeTypes w.nodes with
  | .error e => .error e
  | .ok _ =>
    match w.nodes.find? (fun n => n.type == "1") with
    | Option.none => .error .structuralError
    | some s =>
      match w.nodes.find? (fun n => n.type == "2") with
      | Option.none => .error .structuralError
      | some en =>
        .ok { condition_edges := collectConditionEdges w.edges,
              normal_edges := w.edges.filter (fun e => e.sourcePortID == ""),
              entry := s.id, finish := en.id }

/-- create_node_handler: dispatch on the node type; an unsupported type
raises ValueError. -/
def dispatchNode (chat : String → String) (node : Node) (st : WorkflowState) :
    Except RunError WorkflowState :=
  if node.type = "1" then handle_start_node st
  else if node.type = "2" then handle_end_node node st
  else if node.type = "3" then handle_llm_node chat node st
  else if node.type = "4" then handle_kb_node node st
  else if node.type = "8" then handle_condition_node node st
  else .error .valueError

/-- One langgraph superstep body: the wrapped handler records the
current node id in the state, then create_node_handler dispatches on the
node type. -/
def stepNode (chat : String → String) (w : Workflow) (nodeId : String)
    (st : WorkflowState) : Except RunError WorkflowState :=
  match getNodeById w nodeId with
  | Option.none => .error .missingNode
  | some node => dispatchNode chat node { st with current_node := nodeId }

/-- Successor selection after a node executes: reaching the finish node
ends the run; a source with tagged edges routes through its path map by
should_continue, a tag absent from the map being the run-time routing
failure; otherwise the first untagged edge out is taken, and a node with
no outgoing edge ends the run. -/
def nextNode (cg : CompiledGraph) (st : WorkflowState) (cur : String) :
    Except RunError (Option String) :=
  if cur = cg.finish then .ok Option.none
  else
    match dictGet cg.condition_edges cur with
    | some paths =>
      match dictGet paths (should_continue st) with
      | some tgt => .ok (some tgt)
      | Option.none => .error .routingError
    | Option.none =>
      match cg.normal_edges.find? (fun e => e.sourceNodeID == cur) with
      | some e => .ok (some e.targetNodeID)
      | Option.none => .ok Option.none

/-- The langgraph invocation loop with the recursion limit as fuel: each
unit of fuel admits one handler invocation, and exhausting the fuel
before the run ends is GraphRecursionError. -/
def runLoop (chat : String → String) (w : Workflow) (cg : CompiledGraph) :
    Nat → String → WorkflowState → Except RunError WorkflowState
  | 0, _, _ => .error .recursionLimit
  | Nat.succ fuel, cur, st =>
    match stepNode chat w cur st with
    | .error e => .error e
    | .ok st' =>
      match nextNode cg st' cur with
      | .error e => .error e
      | .ok Option.none => .ok st'
      | .ok (some nxt) => runLoop chat w cg fuel nxt st'

/-- The node ids whose handlers runLoop invokes, in order. -/
def runVisits (chat : String → String) (w : Workflow) (cg : CompiledGraph) :
    Nat → String → WorkflowState → List String
  | 0, _, _ => []
  | Nat.succ fuel, cur, st =>
    cur ::
      (match stepNode chat w cur st with
       | .error _ => []
       | .ok st' =>
         match nextNode cg st' cur with
         | .error _ => []
         | .ok Option.none => []
         | .ok (some nxt) => runVisits chat w cg fuel nxt st')

/-- The initial state run seeds: the question value stored under the
Start node's id, an empty final output, and no condition result yet. -/
def initState (startId : String) (q : Value) : WorkflowState :=
  { node_outputs := [(startId, [("question", { value := q, type := "string" })])],
    current_node := startId,
    final_output := Value.str "",
    condition_result := Option.none }

/-- WorkflowExecutor.run: locate the Start node, seed the store with the
question input under its id, build the graph, invoke it with a recursion
limit of twice the node count, and deliver the final output as its
character sequence. A non-string final output would make the character
iteration raise TypeError. -/
def run (chat : String → String) (w : Workflow) (inputs : List (String × Value)) :
    Except RunError (List Char) :=
  match w.nodes.find? (fun n => n.type == "1") with
  | Option.none => .error .structuralError
  | some start_node =>
    match dictGet inputs "question" with
    | Option.none => .error .keyError
    | some q =>
      match build w with
      | .error e => .error e
      | .ok cg =>
        match runLoop chat w cg (2 * w.nodes.length) cg.entry (initState start_node.id q) with
        | .error e => .error e
        | .ok stF =>
          match stF.final_output with
          | Value.str s => .ok s.data
          | _ => .error .typeMismatch

/-- Build a literal input parameter. -/
def litParam (pname : String) (v : Value) : InputParameter :=
  { name := pname, input := { value := ValueSpec.literal v } }

/-- Build a reference input parameter. -/
def refParam (pname blockID oname : String) : InputParameter :=
  { name := pname, input := { value := ValueSpec.ref blockID oname } }

/-- Build a node from an id, a type and its inputs. -/
def mkNode (i t : String) (ins : NodeInputs) : Node :=
  { data := { inputs := ins }, id := i, type := t }

/-- The stub chat collaborator that returns its prompt unchanged. -/
def idChat : String → String := fun s => s

/-- The seed inputs carrying the question hi. -/
def qhi : List (String × Value) := [("question", Value.str "hi")]

/-- The round-trip graph: Start, then a ModelCall node whose single
input is the literal hi, then an End node referencing its output. -/
def wRoundTrip : Workflow :=
  { nodes :=
      [ mkNode "start" "1" {},
        mkNode "llm" "3" { inputParameters := [litParam "input" (Value.str "hi")] },
        mkNode "end" "2" { inputParameters := [refParam "output" "llm" "output"] } ],
    edges :=
      [ { sourceNodeID := "start", targetNodeID := "llm" },
        { sourceNodeID := "llm", targetNodeID := "end" } ] }

/-- An unsatisfied comparison: the literal a equals the literal b. -/
def condAB : Condition :=
  { left := [("left", { value := ValueSpec.literal (Value.str "a") })],
    operator := 1,
    right := [("right", { value := ValueSpec.literal (Value.str "b") })] }

/-- A satisfied comparison: the literal a equals the literal a. -/
def condAA : Condition :=
  { left := [("left", { value := ValueSpec.literal (Value.str "a") })],
    operator := 1,
    right := [("right", { value := ValueSpec.literal (Value.str "a") })] }

/-- A condition group holding only the unsatisfied comparison. -/
def groupAB : Branch := { condition := { conditions := [condAB] } }

/-- A condition group holding only the satisfied comparison. -/
def groupAA : Branch := { condition := { conditions := [condAA] } }

/-- A Condition node carrying no condition groups at all. -/
def condNoBranches : Node := mkNode "cond" "8" {}

/-- A Condition node whose first group is unsatisfied and whose second
group is satisfied. -/
def condTwoGroups : Node := mkNode "cond" "8" { branches := [groupAB, groupAA] }

/-- A state with an empty store, used to exercise handlers directly. -/
def stBase : WorkflowState :=
  { node_outputs := [], current_node := "cond", final_output := Value.str "",
    condition_result := Option.none }

/-- A successful run of the comparison loop only ever sets the tag (it
emits no data outputs), and the tag is true exactly when some comparison
of the list is satisfied. -/
theorem evalConditions_ok (conds : List Condition) (st st' : WorkflowState)
    (h : evalConditions conds st = Except.ok st') :
    (st' = setTag st "true" ∨ st' = setTag st "false")
    ∧ (st'.condition_result = some "true" ↔
        ∃ c ∈ conds, evalCondition c st = Except.ok true) := by
  induction conds with
  | nil =>
    simp only [evalConditions, Except.ok.injEq] at h
    subst h
    simp [setTag]
  | cons c rest ih =>
    simp only [evalConditions] at h
    rcases hc : evalCondition c st with e | b
    · rw [hc] at h; cases h
    · rw [hc] at h
      cases b with
      | true =>
        simp only [Except.ok.injEq] at h
        subst h
        refine ⟨Or.inl rfl, ?_⟩
        simp only [setTag, true_iff]
        exact ⟨c, List.mem_cons_self c rest, hc⟩
      | false =>
        obtain ⟨hor, hiff⟩ := ih h
        refine ⟨hor, hiff.trans ?_⟩
        constructor
        · rintro ⟨x, hx, hxe⟩
          exact ⟨x, List.mem_cons_of_mem _ hx, hxe⟩
        · rintro ⟨x, hx, hxe⟩
          rcases List.mem_cons.mp hx with rfl | hx'
          · rw [hc] at hxe; cases hxe
          · exact ⟨x, hx', hxe⟩

/-- C1: for the three-node graph Start to ModelCall to End, where the
ModelCall node has a single literal input and the chat collaborator is
the identity stub, running with seed question hi produces the character
stream h then i and then ends. -/
theorem claim_C1_roundtrip :
    run idChat wRoundTrip qhi = Except.ok ['h', 'i'] := by rfl

/-- C2 counterexample: a Condition node with no condition groups at all
makes the handler set the routing tag to true, not false as the claim
states, even though no comparison of any group is satisfied. -/
theorem claim_C2_counterexample :
    handle_condition_node condNoBranches stBase = Except.ok (setTag stBase "true")
    ∧ (setTag stBase "true").condition_result = some "true" :=
  ⟨rfl, rfl⟩

/-- C2 (amended): when the Condition handler succeeds it only sets the
routing tag; a node with no condition groups gets the tag true, and
otherwise the tag is true exactly when some comparison of the first
group is satisfied, false when none is. -/
theorem claim_C2_amended (node : Node) (st st' : WorkflowState)
    (h : handle_condition_node node st = Except.ok st') :
    (node.data.inputs.branches = [] → st'.condition_result = some "true")
    ∧ (∀ b bs, node.data.inputs.branches = b :: bs →
        ((st' = setTag st "true" ∨ st' = setTag st "false")
          ∧ (st'.condition_result = some "true" ↔
              ∃ c ∈ b.condition.conditions, evalCondition c st = Except.ok true))) := by
  constructor
  · intro hb
    unfold handle_condition_node at h
    rw [hb] at h
    simp only [Except.ok.injEq] at h
    subst h
    rfl
  · intro b bs hb
    unfold handle_condition_node at h
    rw [hb] at h
    exact evalConditions_ok _ _ _ h

/-- C2 witness: the amended theorem applied to the group-free Condition
node at the empty-store state. -/
theorem claim_C2_witness : (setTag stBase "true").condition_result = some "true" :=
  (claim_C2_amended condNoBranches stBase (setTag stBase "true") rfl).1 rfl

/-- C3 counterexample: with an unsatisfied first group and a satisfied
second group, the handler yields the tag false rather than the claimed
true, even though the second group's comparison is satisfied. -/
theorem claim_C3_counterexample :
    handle_condition_node condTwoGroups stBase = Except.ok (setTag stBase "false")
    ∧ (∃ c ∈ groupAA.condition.conditions, evalCondition c stBase = Except.ok true) := by
  refine ⟨rfl, condAA, ?_, rfl⟩
  simp [groupAA]

/-- C3 (amended): the Condition handler consults only the first
condition group; replacing every later group changes nothing. -/
theorem claim_C3_amended (i : String) (b1 : Branch) (bs : List Branch) (st : WorkflowState) :
    handle_condition_node (mkNode i "8" { branches := b1 :: bs }) st
      = handle_condition_node (mkNode i "8" { branches := [b1] }) st := rfl

/-- Reading the key just written returns the new value. -/
theorem dictGet_dictInsert_self {α : Type} (l : List (String × α)) (k : String) (v : α) :
    dictGet (dictInsert l k v) k = some v := by
  induction l with
  | nil => simp [dictInsert, dictGet]
  | cons p rest ih =>
    obtain ⟨a, b⟩ := p
    by_cases ha : a = k
    · subst ha; simp [dictInsert, dictGet]
    · simp [dictInsert, dictGet, ha, ih]

/-- Reading a different key is unaffected by the write. -/
theorem dictGet_dictInsert_ne {α : Type} (l : List (String × α)) (k k' : String) (v : α)
    (hne : k' ≠ k) : dictGet (dictInsert l k v) k' = dictGet l k' := by
  have hne' : k ≠ k' := fun h => hne h.symm
  induction l with
  | nil => simp [dictInsert, dictGet, hne']
  | cons p rest ih =>
    obtain ⟨a, b⟩ := p
    by_cases ha : a = k
    · subst ha; simp [dictInsert, dictGet, hne']
    · simp [dictInsert, dictGet, ha, ih]

/-- When every node type is supported, the handler-registration loop of
build succeeds. -/
theorem checkNodeTypes_ok (l : List Node) (h : ∀ n ∈ l, supportedType n.type = true) :
    checkNodeTypes l = Except.ok () := by
  induction l with
  | nil => rfl
  | cons n rest ih =>
    have hn := h n (List.mem_cons_self n rest)
    simp only [checkNodeTypes, hn, if_true]
    exact ih fun x hx => h x (List.mem_cons_of_mem _ hx)

/-- The parsed description of a graph with a Start node but no End node. -/
def jNoEnd : WorkflowJson :=
  { nodes := [ mkNode "start" "1" {} ], edges := [] }

/-- The workflow that description constructs. -/
def wNoEnd : Workflow := { nodes := [ mkNode "start" "1" {} ], edges := [] }

/-- C4 counterexample: constructing the workflow that lacks an End node
succeeds without any failure, even though validate reports it invalid;
create_workflow_from_json performs no structural check at all. -/
theorem claim_C4_counterexample :
    create_workflow_from_json jNoEnd = wNoEnd ∧ validate wNoEnd = false :=
  ⟨rfl, rfl⟩

/-- C4 (amended): a workflow lacking a Start node or an End node makes
validate report false, and build fails with the structural error (the
StopIteration of its next calls), so run surfaces that same error from
its compile step before any node handler executes; construction itself,
however, performs no such check and succeeds. -/
theorem claim_C4_amended (chat : String → String) (w : Workflow)
    (inputs : List (String × Value)) (q : Value)
    (htypes : ∀ n ∈ w.nodes, supportedType n.type = true)
    (hq : dictGet inputs "question" = some q)
    (hmiss : w.nodes.find? (fun n => n.type == "1") = Option.none
        ∨ w.nodes.find? (fun n => n.type == "2") = Option.none) :
    validate w = false
    ∧ build w = Except.error RunError.structuralError
    ∧ run chat w inputs = Except.error RunError.structuralError := by
  have hval : validate w = false := by
    unfold validate
    rcases hmiss with h1 | h2
    · have hall := List.find?_eq_none.mp h1
      have : w.nodes.any (fun n => n.type == "1") = false := by
        simp only [List.any_eq_false]
        intro x hx
        exact hall x hx
      rw [this, Bool.false_and]
    · have hall := List.find?_eq_none.mp h2
      have : w.nodes.any (fun n => n.type == "2") = false := by
        simp only [List.any_eq_false]
        intro x hx
        exact hall x hx
      rw [this, Bool.and_false]
  have hbuild : build w = Except.error RunError.structuralError := by
    unfold build
    rw [checkNodeTypes_ok w.nodes htypes]
    rcases hmiss with h1 | h2
    · rw [h1]
    · rcases hf1 : w.nodes.find? (fun n => n.type == "1") with _ | s
      · rw [hf1]
      · rw [hf1, h2]
  refine ⟨hval, hbuild, ?_⟩
  unfold run
  rcases hf1 : w.nodes.find? (fun n => n.type == "1") with _ | s
  · rw [hf1]
  · rw [hf1, hq, hbuild]

/-- C4 witness: the amended theorem applied to the End-less workflow. -/
theorem claim_C4_witness :
    validate wNoEnd = false
    ∧ build wNoEnd = Except.error RunError.structuralError
    ∧ run idChat wNoEnd qhi = Except.error RunError.structuralError :=
  claim_C4_amended idChat wNoEnd qhi (Value.str "hi") (by decide) rfl (Or.inr rfl)

/-- A ModelCall node referencing an output no node ever produces. -/
def llmBadRef : Node := mkNode "llm" "3" { inputParameters := [refParam "input" "ghost" "output"] }

/-- A workflow whose ModelCall node carries that dangling reference. -/
def wBadRef : Workflow :=
  { nodes := [ mkNode "start" "1" {}, llmBadRef, mkNode "end" "2" {} ],
    edges := [ { sourceNodeID := "start", targetNodeID := "llm" },
               { sourceNodeID := "llm", targetNodeID := "end" } ] }

/-- The routing structure build derives for that workflow. -/
def cgBadRef : CompiledGraph :=
  { condition_edges := [], normal_edges := wBadRef.edges, entry := "start", finish := "end" }

/-- C5: a reference to an output the named source node has not produced
fails with the unresolved-reference error at either level of the store
read; a step whose handler fails makes the run loop stop with that very
error; and a run that errors yields no character stream. -/
theorem claim_C5_unresolved_reference :
    (∀ store nodeId outputName, dictGet store nodeId = Option.none →
        getValue store nodeId outputName = Except.error RunError.unresolvedReference)
    ∧ (∀ store nodeId outputName outs, dictGet store nodeId = some outs →
        dictGet outs outputName = Option.none →
        getValue store nodeId outputName = Except.error RunError.unresolvedReference)
    ∧ (∀ chat w cg fuel cur st e, stepNode chat w cur st = Except.error e →
        runLoop chat w cg (fuel + 1) cur st = Except.error e)
    ∧ (∀ chat w inputs e cs, run chat w inputs = Except.error e →
        ¬ run chat w inputs = Except.ok cs) := by
  refine ⟨?_, ?_, ?_, ?_⟩
  · intro store nodeId outputName h
    simp [getValue, h]
  · intro store nodeId outputName outs h1 h2
    simp [getValue, h1, h2]
  · intro chat w cg fuel cur st e h
    simp [runLoop, h]
  · intro chat w inputs e cs h hok
    rw [h] at hok
    cases hok

/-- C5 witness: the dangling reference of wBadRef fails resolution, the
loop halts with the unresolved-reference error, and the full run of the
workflow produces no stream. -/
theorem claim_C5_witness :
    getValue [] "ghost" "output" = Except.error RunError.unresolvedReference
    ∧ runLoop idChat wBadRef cgBadRef 1 "llm" stBase
        = Except.error RunError.unresolvedReference
    ∧ ¬ run idChat wBadRef qhi = Except.ok [] :=
  ⟨claim_C5_unresolved_reference.1 [] "ghost" "output" rfl,
   claim_C5_unresolved_reference.2.2.1 idChat wBadRef cgBadRef 0 "llm" stBase
     RunError.unresolvedReference rfl,
   claim_C5_unresolved_reference.2.2.2 idChat wBadRef qhi
     RunError.unresolvedReference [] rfl⟩

/-- A ModelCall node whose single input is the literal new. -/
def llmNew : Node := mkNode "llm" "3" { inputParameters := [litParam "p" (Value.str "new")] }

/-- A state in which the ModelCall node already has recorded outputs. -/
def stPre : WorkflowState :=
  { node_outputs :=
      [ ("start", [("question", { value := Value.str "hi", type := "string" })]),
        ("llm", [("output", { value := Value.str "old", type := "string" })]) ],
    current_node := "llm", final_output := Value.str "", condition_result := Option.none }

/-- The store after the ModelCall handler runs again: its old entry is
replaced in place. -/
def stPostOutputs : List (String × List (String × NodeOutput)) :=
  dictInsert stPre.node_outputs "llm"
    [("output", { value := Value.str "new", type := "string" })]

/-- The state after the ModelCall handler runs again over that store. -/
def stPost : WorkflowState := { stPre with node_outputs := stPostOutputs }

/-- A KnowledgeRetrieval node whose query references the Start question. -/
def kbNode : Node := mkNode "kb" "4" { inputParameters := [refParam "query" "start" "question"] }

/-- A KnowledgeRetrieval state in which the KB node already has recorded
outputs and the Start question its query references is present. -/
def stKBPre : WorkflowState :=
  { node_outputs :=
      [ ("start", [("question", { value := Value.str "hi", type := "string" })]),
        ("kb", [("context", { value := Value.str "old", type := "string" })]) ],
    current_node := "kb", final_output := Value.str "", condition_result := Option.none }

/-- The store after the KnowledgeRetrieval handler runs again: its old
entry is replaced in place. -/
def stKBPreOutputs : List (String × List (String × NodeOutput)) :=
  dictInsert stKBPre.node_outputs "kb"
    [("context", { value := Value.str kbPlaceholder, type := "string" })]

/-- The state after the KnowledgeRetrieval handler runs over stKBPre. -/
def stKBPrePost : WorkflowState := { stKBPre with node_outputs := stKBPreOutputs }

/-- C6 counterexample: an output-recording handler that executes while
its node id already has recorded outputs succeeds and silently
overwrites the old entry; no duplicate-output failure occurs, neither
for the ModelCall handler nor for the KnowledgeRetrieval handler. -/
theorem claim_C6_counterexample :
    handle_llm_node idChat llmNew stPre = Except.ok stPost
    ∧ dictGet stPre.node_outputs "llm"
        = some [("output", { value := Value.str "old", type := "string" })]
    ∧ dictGet stPost.node_outputs "llm"
        = some [("output", { value := Value.str "new", type := "string" })]
    ∧ handle_kb_node kbNode stKBPre = Except.ok stKBPrePost
    ∧ dictGet stKBPre.node_outputs "kb"
        = some [("context", { value := Value.str "old", type := "string" })]
    ∧ dictGet stKBPrePost.node_outputs "kb"
        = some [("context", { value := Value.str kbPlaceholder, type := "string" })] :=
  ⟨rfl, rfl, rfl, rfl, rfl, rfl⟩

/-- C6 (amended): each successful output-recording handler (ModelCall
and KnowledgeRetrieval) writes only under its own node id, replacing
whatever was recorded there, and leaves every other node's entry
untouched; re-execution overwrites silently instead of failing. -/
theorem claim_C6_amended :
    (∀ (chat : String → String) (node : Node) (st st' : WorkflowState),
      handle_llm_node chat node st = Except.ok st' →
      (∀ k, k ≠ node.id → dictGet st'.node_outputs k = dictGet st.node_outputs k)
      ∧ ∃ reply : String, dictGet st'.node_outputs node.id
          = some [("output", { value := Value.str reply, type := "string" })])
    ∧ (∀ (node : Node) (st st' : WorkflowState),
      handle_kb_node node st = Except.ok st' →
      (∀ k, k ≠ node.id → dictGet st'.node_outputs k = dictGet st.node_outputs k)
      ∧ dictGet st'.node_outputs node.id
          = some [("context", { value := Value.str kbPlaceholder, type := "string" })]) := by
  constructor
  · intro chat node st st' h
    unfold handle_llm_node at h
    split at h
    · exact Except.noConfusion h
    · split at h
      · exact Except.noConfusion h
      · rename_i input_str heq
        simp only [Except.ok.injEq] at h
        subst h
        refine ⟨fun k hk => dictGet_dictInsert_ne _ _ _ _ hk, chat input_str, ?_⟩
        exact dictGet_dictInsert_self _ _ _
  · intro node st st' h
    unfold handle_kb_node at h
    split at h
    · exact Except.noConfusion h
    · simp only [Except.ok.injEq] at h
      subst h
      exact ⟨fun k hk => dictGet_dictInsert_ne _ _ _ _ hk, dictGet_dictInsert_self _ _ _⟩

/-- C6 witness: the amended theorem applied to both overwrite scenarios,
showing the Start node's entry is untouched by the second execution of
the ModelCall handler and of the KnowledgeRetrieval handler. -/
theorem claim_C6_witness :
    dictGet stPost.node_outputs "start" = dictGet stPre.node_outputs "start"
    ∧ dictGet stKBPrePost.node_outputs "start" = dictGet stKBPre.node_outputs "start" :=
  ⟨(claim_C6_amended.1 idChat llmNew stPre stPost rfl).1 "start" (by decide),
   (claim_C6_amended.2 kbNode stKBPre stKBPrePost rfl).1 "start" (by decide)⟩

/-- A Condition node whose single group holds only the unsatisfied
comparison, so its handler emits the tag false. -/
def condFalseNode : Node := mkNode "cond" "8" { branches := [groupAB] }

/-- A workflow whose Condition node has an outgoing edge tagged true but
none tagged false. -/
def wMissingFalse : Workflow :=
  { nodes := [ mkNode "start" "1" {}, condFalseNode, mkNode "end" "2" {} ],
    edges := [ { sourceNodeID := "start", targetNodeID := "cond" },
               { sourceNodeID := "cond", targetNodeID := "end", sourcePortID := "true" } ] }

/-- The routing structure build derives for wMissingFalse. -/
def cgMissingFalse : CompiledGraph :=
  { condition_edges := [("cond", [("true", "end")])],
    normal_edges := [ { sourceNodeID := "start", targetNodeID := "cond" } ],
    entry := "start", finish := "end" }

/-- C8 counterexample: build accepts the graph whose Condition node has
no edge tagged false, so no structural failure happens at compile time;
the compiled path map for the Condition node holds only the tag true. -/
theorem claim_C8_counterexample :
    build wMissingFalse = Except.ok cgMissingFalse
    ∧ dictGet cgMissingFalse.condition_edges "cond" = some [("true", "end")] :=
  ⟨rfl, rfl⟩

/-- C8 (amended): the missing tag surfaces only at run time: when the
Condition handler emits false, the routing lookup fails and the run
errors. -/
theorem claim_C8_amended :
    run idChat wMissingFalse qhi = Except.error RunError.routingError := rfl

/-- A state whose store holds the question hello under the Start id. -/
def stKB : WorkflowState :=
  { node_outputs := [("start", [("question", { value := Value.str "hello", type := "string" })])],
    current_node := "kb", final_output := Value.str "", condition_result := Option.none }

/-- The store after the KnowledgeRetrieval handler runs over stKB. -/
def stKBOutputs : List (String × List (String × NodeOutput)) :=
  dictInsert stKB.node_outputs "kb"
    [("context", { value := Value.str kbPlaceholder, type := "string" })]

/-- The state after the KnowledgeRetrieval handler runs over stKB. -/
def stKBPost : WorkflowState := { stKB with node_outputs := stKBOutputs }

/-- C9: the KnowledgeRetrieval handler resolves its query input (here
the Start question, which resolves to hello) but then records the
hard-coded placeholder string as the context output; no retrieval
collaborator is invoked, so the recorded value is independent of the
query. -/
theorem claim_C9_kb_placeholder :
    handle_kb_node kbNode stKB = Except.ok stKBPost
    ∧ kbQuery kbNode.data.inputs.inputParameters stKB (Value.str "")
        = Except.ok (Value.str "hello")
    ∧ dictGet stKBPost.node_outputs "kb"
        = some [("context", { value := Value.str kbPlaceholder, type := "string" })] :=
  ⟨rfl, rfl, rfl⟩

/-- A parameter list with no reference-typed entry passes through the
End handler's loop without effect: final_output is never written. -/
theorem endLoop_no_ref (params : List InputParameter) (st : WorkflowState)
    (h : ∀ p ∈ params, p.input.value.isRef = false) :
    endLoop params st = Except.ok st := by
  induction params with
  | nil => rfl
  | cons p rest ih =>
    have hp := h p (List.mem_cons_self p rest)
    rcases hv : p.input.value with v | ⟨blockID, nm⟩
    · simp only [endLoop, hv]
      exact ih fun x hx => h x (List.mem_cons_of_mem _ hx)
    · rw [hv] at hp
      simp [ValueSpec.isRef] at hp

/-- A successful ModelCall handler never changes final_output. -/
theorem handle_llm_fo (chat : String → String) (node : Node) (st st' : WorkflowState)
    (h : handle_llm_node chat node st = Except.ok st') :
    st'.final_output = st.final_output := by
  unfold handle_llm_node at h
  split at h
  · exact Except.noConfusion h
  · split at h
    · exact Except.noConfusion h
    · simp only [Except.ok.injEq] at h
      subst h
      rfl

/-- A successful KnowledgeRetrieval handler never changes final_output. -/
theorem handle_kb_fo (node : Node) (st st' : WorkflowState)
    (h : handle_kb_node node st = Except.ok st') :
    st'.final_output = st.final_output := by
  unfold handle_kb_node at h
  split at h
  · exact Except.noConfusion h
  · simp only [Except.ok.injEq] at h
    subst h
    rfl

/-- A successful Condition handler never changes final_output. -/
theorem handle_condition_fo (node : Node) (st st' : WorkflowState)
    (h : handle_condition_node node st = Except.ok st') :
    st'.final_output = st.final_output := by
  unfold handle_condition_node at h
  split at h
  · simp only [Except.ok.injEq] at h
    subst h
    rfl
  · rcases (evalConditions_ok _ _ _ h).1 with h1 | h1 <;> (subst h1; rfl)

/-- When the node's End parameters are reference-free, dispatch leaves
final_output unchanged. -/
theorem dispatchNode_fo (chat : String → String) (node : Node) (st st' : WorkflowState)
    (hend : node.type = "2" → ∀ p ∈ node.data.inputs.inputParameters, p.input.value.isRef = false)
    (h : dispatchNode chat node st = Except.ok st') :
    st'.final_output = st.final_output := by
  unfold dispatchNode at h
  split_ifs at h with h1 h2 h3 h4 h5
  · simp only [handle_start_node, Except.ok.injEq] at h
    subst h
    rfl
  · rw [handle_end_node, endLoop_no_ref _ _ (hend h2)] at h
    simp only [Except.ok.injEq] at h
    subst h
    rfl
  · exact handle_llm_fo chat node st st' h
  · exact handle_kb_fo node st st' h
  · exact handle_condition_fo node st st' h

/-- When every End node of the workflow has reference-free parameters,
one step leaves final_output unchanged. -/
theorem stepNode_fo (chat : String → String) (w : Workflow) (cur : String)
    (st st' : WorkflowState)
    (hend : ∀ n ∈ w.nodes, n.type = "2" →
      ∀ p ∈ n.data.inputs.inputParameters, p.input.value.isRef = false)
    (h : stepNode chat w cur st = Except.ok st') :
    st'.final_output = st.final_output := by
  unfold stepNode at h
  split at h
  · exact Except.noConfusion h
  · rename_i node hn
    have hmem : node ∈ w.nodes := by
      unfold getNodeById at hn
      exact List.mem_of_find?_eq_some hn
    exact dispatchNode_fo chat node { st with current_node := cur } st'
      (fun ht => hend node hmem ht) h

/-- When every End node of the workflow has reference-free parameters,
a successful loop run leaves final_output unchanged. -/
theorem runLoop_fo (chat : String → String) (w : Workflow) (cg : CompiledGraph)
    (hend : ∀ n ∈ w.nodes, n.type = "2" →
      ∀ p ∈ n.data.inputs.inputParameters, p.input.value.isRef = false) :
    ∀ fuel cur st stF, runLoop chat w cg fuel cur st = Except.ok stF →
      stF.final_output = st.final_output := by
  intro fuel
  induction fuel with
  | zero => intro cur st stF h; exact Except.noConfusion h
  | succ fuel ih =>
    intro cur st stF h
    simp only [runLoop] at h
    split at h
    · exact Except.noConfusion h
    · rename_i st' hstep
      split at h
      · exact Except.noConfusion h
      · simp only [Except.ok.injEq] at h
        subst h
        exact stepNode_fo chat w cur st _ hend hstep
      · exact (ih _ _ _ h).trans (stepNode_fo chat w cur st st' hend hstep)

/-- C10: when no End node carries a reference-typed input parameter, the
End handler returns the state unchanged (the literal value is silently
ignored, with no error), so final_output keeps its initial empty-string
value and every successful run streams the empty character sequence. -/
theorem claim_C10_literal_end_ignored :
    (∀ node st, (∀ p ∈ node.data.inputs.inputParameters, p.input.value.isRef = false) →
      handle_end_node node st = Except.ok st)
    ∧ (∀ chat w inputs,
        (∀ n ∈ w.nodes, n.type = "2" →
          ∀ p ∈ n.data.inputs.inputParameters, p.input.value.isRef = false) →
        (run chat w inputs = Except.ok [] ∨ (run chat w inputs).isOk = false)) := by
  constructor
  · intro node st h
    exact endLoop_no_ref _ _ h
  · intro chat w inputs hend
    unfold run
    rcases hf : w.nodes.find? (fun n => n.type == "1") with _ | s
    · right
      simp only [hf]
      rfl
    · simp only [hf]
      rcases hq : dictGet inputs "question" with _ | q
      · right
        simp only [hq]
        rfl
      · simp only [hq]
        rcases hb : build w with e | cg
        · right
          simp only [hb]
          rfl
        · simp only [hb]
          rcases hrl : runLoop chat w cg (2 * w.nodes.length) cg.entry (initState s.id q)
            with e | stF
          · right
            simp only [hrl]
            rfl
          · have hfo : stF.final_output = Value.str "" :=
              runLoop_fo chat w cg hend _ _ _ _ hrl
            left
            simp only [hrl, hfo]

/-- An End node whose single input parameter is a literal, wired after
the Start node. -/
def wEndLit : Workflow :=
  { nodes := [ mkNode "start" "1" {},
               mkNode "end" "2" { inputParameters := [litParam "output" (Value.str "ignored")] } ],
    edges := [ { sourceNodeID := "start", targetNodeID := "end" } ] }

/-- C10 witness: the round of the literal-End workflow streams nothing. -/
theorem claim_C10_witness :
    run idChat wEndLit qhi = Except.ok [] ∨ (run idChat wEndLit qhi).isOk = false :=
  claim_C10_literal_end_ignored.2 idChat wEndLit qhi (by decide)

/-- A failing store read never reports the recursion-limit error. -/
theorem getValue_err (store : List (String × List (String × NodeOutput)))
    (nodeId outputName : String) (e : RunError)
    (h : getValue store nodeId outputName = Except.error e) :
    e ≠ RunError.recursionLimit := by
  unfold getValue at h
  split at h
  · simp only [Except.error.injEq] at h
    subst h
    decide
  · split at h
    · simp only [Except.error.injEq] at h
      subst h
      decide
    · exact Except.noConfusion h

/-- A failing input resolution never reports the recursion-limit error. -/
theorem resolveInput_err (iv : InputValue) (st : WorkflowState) (e : RunError)
    (h : resolveInput iv st = Except.error e) : e ≠ RunError.recursionLimit := by
  unfold resolveInput at h
  split at h
  · exact getValue_err _ _ _ _ h
  · exact Except.noConfusion h

/-- A failing parameter loop never reports the recursion-limit error. -/
theorem resolveParams_err (params : List InputParameter) (st : WorkflowState)
    (e : RunError) :
    ∀ acc, resolveParams params st acc = Except.error e → e ≠ RunError.recursionLimit := by
  induction params with
  | nil => intro acc h; exact Except.noConfusion h
  | cons p rest ih =>
    intro acc h
    simp only [resolveParams] at h
    split at h
    · rename_i e' heq
      simp only [Except.error.injEq] at h
      subst h
      exact resolveInput_err _ _ _ heq
    · exact ih _ h

/-- A failing join never reports the recursion-limit error. -/
theorem joinValues_err (l : List Value) (e : RunError)
    (h : joinValues l = Except.error e) : e ≠ RunError.recursionLimit := by
  induction l with
  | nil => exact Except.noConfusion h
  | cons v rest ih =>
    cases v with
    | str s =>
      simp only [joinValues] at h
      split at h
      · rename_i e' heq
        simp only [Except.error.injEq] at h
        subst h
        exact ih heq
      · exact Except.noConfusion h
    | int n =>
      simp only [joinValues, Except.error.injEq] at h
      subst h
      decide
    | bool b =>
      simp only [joinValues, Except.error.injEq] at h
      subst h
      decide
    | none =>
      simp only [joinValues, Except.error.injEq] at h
      subst h
      decide

/-- A failing length never reports the recursion-limit error. -/
theorem lengthOf_err (v : Value) (e : RunError)
    (h : lengthOf v = Except.error e) : e ≠ RunError.recursionLimit := by
  cases v with
  | str s => exact Except.noConfusion h
  | int n => simp only [lengthOf, Except.error.injEq] at h; subst h; decide
  | bool b => simp only [lengthOf, Except.error.injEq] at h; subst h; decide
  | none => simp only [lengthOf, Except.error.injEq] at h; subst h; decide

/-- A failing integer conversion never reports the recursion-limit
error. -/
theorem toIntVal_err (v : Value) (e : RunError)
    (h : toIntVal v = Except.error e) : e ≠ RunError.recursionLimit := by
  cases v with
  | str s =>
    simp only [toIntVal] at h
    split at h
    · exact Except.noConfusion h
    · simp only [Except.error.injEq] at h
      subst h
      decide
  | int n => exact Except.noConfusion h
  | bool b => exact Except.noConfusion h
  | none => simp only [toIntVal, Except.error.injEq] at h; subst h; decide

/-- A failing comparison never reports the recursion-limit error. -/
theorem compare_values_err (left : Value) (operator : Int) (right : Value) (e : RunError)
    (h : compare_values left operator right = Except.error e) :
    e ≠ RunError.recursionLimit := by
  unfold compare_values at h
  split_ifs at h
  · split at h
    · rename_i e' heq
      simp only [Except.error.injEq] at h
      subst h
      exact lengthOf_err _ _ heq
    · split at h
      · rename_i e' heq
        simp only [Except.error.injEq] at h
        subst h
        exact toIntVal_err _ _ heq
      · exact Except.noConfusion h
  · split at h
    · rename_i e' heq
      simp only [Except.error.injEq] at h
      subst h
      exact lengthOf_err _ _ heq
    · split at h
      · rename_i e' heq
        simp only [Except.error.injEq] at h
        subst h
        exact toIntVal_err _ _ heq
      · exact Except.noConfusion h

/-- A failing operand read never reports the recursion-limit error. -/
theorem get_condition_value_err (valueDict : List (String × InputValue))
    (st : WorkflowState) (e : RunError)
    (h : get_condition_value valueDict st = Except.error e) :
    e ≠ RunError.recursionLimit := by
  unfold get_condition_value at h
  split at h
  · exact Except.noConfusion h
  · split at h
    · exact getValue_err _ _ _ _ h
    · exact Except.noConfusion h

/-- A failing single comparison never reports the recursion-limit
error. -/
theorem evalCondition_err (c : Condition) (st : WorkflowState) (e : RunError)
    (h : evalCondition c st = Except.error e) : e ≠ RunError.recursionLimit := by
  unfold evalCondition at h
  split at h
  · rename_i e' heq
    simp only [Except.error.injEq] at h
    subst h
    exact get_condition_value_err _ _ _ heq
  · split at h
    · rename_i e' heq
      simp only [Except.error.injEq] at h
      subst h
      exact get_condition_value_err _ _ _ heq
    · exact compare_values_err _ _ _ _ h

/-- A failing comparison loop never reports the recursion-limit error. -/
theorem evalConditions_err (conds : List Condition) (st : WorkflowState) (e : RunError)
    (h : evalConditions conds st = Except.error e) : e ≠ RunError.recursionLimit := by
  induction conds with
  | nil => exact Except.noConfusion h
  | cons c rest ih =>
    simp only [evalConditions] at h
    split at h
    · rename_i e' heq
      simp only [Except.error.injEq] at h
      subst h
      exact evalCondition_err _ _ _ heq
    · exact Except.noConfusion h
    · exact ih h

/-- A failing End-parameter loop never reports the recursion-limit
error. -/
theorem endLoop_err (params : List InputParameter) (st : WorkflowState) (e : RunError)
    (h : endLoop params st = Except.error e) : e ≠ RunError.recursionLimit := by
  induction params with
  | nil => exact Except.noConfusion h
  | cons p rest ih =>
    simp only [endLoop] at h
    split at h
    · split at h
      · rename_i e' heq
        simp only [Except.error.injEq] at h
        subst h
        exact getValue_err _ _ _ _ heq
      · exact Except.noConfusion h
    · exact ih h

/-- A failing query loop never reports the recursion-limit error. -/
theorem kbQuery_err (params : List InputParameter) (st : WorkflowState) (e : RunError) :
    ∀ q, kbQuery params st q = Except.error e → e ≠ RunError.recursionLimit := by
  induction params with
  | nil => intro q h; exact Except.noConfusion h
  | cons p rest ih =>
    intro q h
    simp only [kbQuery] at h
    split at h
    · split at h
      · rename_i e' heq
        simp only [Except.error.injEq] at h
        subst h
        exact getValue_err _ _ _ _ heq
      · exact ih _ h
    · exact ih _ h

/-- A failing node dispatch never reports the recursion-limit error. -/
theorem dispatchNode_err (chat : String → String) (node : Node) (st : WorkflowState)
    (e : RunError) (h : dispatchNode chat node st = Except.error e) :
    e ≠ RunError.recursionLimit := by
  unfold dispatchNode at h
  split_ifs at h
  · exact Except.noConfusion h
  · exact endLoop_err _ _ _ h
  · unfold handle_llm_node at h
    split at h
    · rename_i e' heq
      simp only [Except.error.injEq] at h
      subst h
      exact resolveParams_err _ _ _ _ heq
    · split at h
      · rename_i e' heq
        simp only [Except.error.injEq] at h
        subst h
        exact joinValues_err _ _ heq
      · exact Except.noConfusion h
  · unfold handle_kb_node at h
    split at h
    · rename_i e' heq
      simp only [Except.error.injEq] at h
      subst h
      exact kbQuery_err _ _ _ _ heq
    · exact Except.noConfusion h
  · unfold handle_condition_node at h
    split at h
    · exact Except.noConfusion h
    · exact evalConditions_err _ _ _ h
  · simp only [Except.error.injEq] at h
    subst h
    decide

/-- A failing step never reports the recursion-limit error. -/
theorem stepNode_err (chat : String → String) (w : Workflow) (cur : String)
    (st : WorkflowState) (e : RunError) (h : stepNode chat w cur st = Except.error e) :
    e ≠ RunError.recursionLimit := by
  unfold stepNode at h
  split at h
  · simp only [Except.error.injEq] at h
    subst h
    decide
  · exact dispatchNode_err _ _ _ _ h

/-- A failing successor selection never reports the recursion-limit
error. -/
theorem nextNode_err (cg : CompiledGraph) (st : WorkflowState) (cur : String) (e : RunError)
    (h : nextNode cg st cur = Except.error e) : e ≠ RunError.recursionLimit := by
  unfold nextNode at h
  split_ifs at h
  split at h
  · split at h
    · exact Except.noConfusion h
    · simp only [Except.error.injEq] at h
      subst h
      decide
  · split at h
    · exact Except.noConfusion h
    · exact Except.noConfusion h

/-- A successful dict read returns an entry of the list. -/
theorem dictGet_mem {α : Type} (l : List (String × α)) (k : String) (v : α)
    (h : dictGet l k = some v) : (k, v) ∈ l := by
  induction l with
  | nil => exact Option.noConfusion h
  | cons p rest ih =>
    obtain ⟨a, b⟩ := p
    by_cases ha : a = k
    · subst ha
      simp [dictGet] at h
      subst h
      exact List.mem_cons_self _ _
    · simp only [dictGet, if_neg ha] at h
      exact List.mem_cons_of_mem _ (ih h)

/-- The visit list never exceeds the fuel. -/
theorem runVisits_length (chat : String → String) (w : Workflow) (cg : CompiledGraph) :
    ∀ fuel cur st, (runVisits chat w cg fuel cur st).length ≤ fuel := by
  intro fuel
  induction fuel with
  | zero => intro cur st; simp [runVisits]
  | succ fuel ih =>
    intro cur st
    simp only [runVisits]
    split
    · simp
    · split
      · simp
      · simp
      · simp only [List.length_cons]
        exact Nat.succ_le_succ (ih _ _)

/-- Under a rank function that decreases along every registered edge,
each successor nextNode selects has strictly smaller rank. -/
theorem nextNode_rank (cg : CompiledGraph) (rank : String → Nat)
    (hn : ∀ e ∈ cg.normal_edges, rank e.targetNodeID < rank e.sourceNodeID)
    (hc : ∀ q ∈ cg.condition_edges, ∀ p ∈ q.2, rank p.2 < rank q.1)
    (st : WorkflowState) (cur nxt : String)
    (h : nextNode cg st cur = Except.ok (some nxt)) : rank nxt < rank cur := by
  unfold nextNode at h
  split_ifs at h with hfin
  · simp at h
  · split at h
    · rename_i paths hpaths
      split at h
      · rename_i tgt htgt
        simp only [Except.ok.injEq, Option.some.injEq] at h
        subst h
        exact hc _ (dictGet_mem _ _ _ hpaths) _ (dictGet_mem _ _ _ htgt)
      · exact Except.noConfusion h
    · split at h
      · rename_i e' hfind
        simp only [Except.ok.injEq, Option.some.injEq] at h
        subst h
        have hmem : e' ∈ cg.normal_edges := List.mem_of_find?_eq_some hfind
        have hsrc : e'.sourceNodeID = cur := by
          have hp := List.find?_some hfind
          simpa using hp
        have := hn e' hmem
        rw [hsrc] at this
        exact this
      · simp at h

/-- Under a decreasing rank, fuel beyond the current rank never lets the
loop report the recursion-limit error. -/
theorem runLoop_no_limit (chat : String → String) (w : Workflow) (cg : CompiledGraph)
    (rank : String → Nat)
    (hn : ∀ e ∈ cg.normal_edges, rank e.targetNodeID < rank e.sourceNodeID)
    (hc : ∀ q ∈ cg.condition_edges, ∀ p ∈ q.2, rank p.2 < rank q.1) :
    ∀ fuel cur st, rank cur < fuel →
      runLoop chat w cg fuel cur st ≠ Except.error RunError.recursionLimit := by
  intro fuel
  induction fuel with
  | zero => intro cur st hcur; exact absurd hcur (Nat.not_lt_zero _)
  | succ fuel ih =>
    intro cur st hcur hcontra
    simp only [runLoop] at hcontra
    split at hcontra
    · rename_i e hstep
      simp only [Except.error.injEq] at hcontra
      subst hcontra
      exact stepNode_err chat w cur st _ hstep rfl
    · rename_i st' hstep
      split at hcontra
      · rename_i e hnext
        simp only [Except.error.injEq] at hcontra
        subst hcontra
        exact nextNode_err cg st' cur _ hnext rfl
      · exact Except.noConfusion hcontra
      · rename_i nxt hnext
        have hlt := nextNode_rank cg rank hn hc st' cur nxt hnext
        exact ih nxt st' (by omega) hcontra

/-- Under a decreasing rank every visited node has rank at most the one
of the current node, and the visit list has no duplicates. -/
theorem runVisits_nodup (chat : String → String) (w : Workflow) (cg : CompiledGraph)
    (rank : String → Nat)
    (hn : ∀ e ∈ cg.normal_edges, rank e.targetNodeID < rank e.sourceNodeID)
    (hc : ∀ q ∈ cg.condition_edges, ∀ p ∈ q.2, rank p.2 < rank q.1) :
    ∀ fuel cur st, (∀ x ∈ runVisits chat w cg fuel cur st, rank x ≤ rank cur)
      ∧ (runVisits chat w cg fuel cur st).Nodup := by
  intro fuel
  induction fuel with
  | zero =>
    intro cur st
    refine ⟨?_, ?_⟩
    · intro x hx
      simp [runVisits] at hx
    · simp [runVisits]
  | succ fuel ih =>
    intro cur st
    simp only [runVisits]
    split
    · refine ⟨?_, ?_⟩
      · intro x hx
        rcases List.mem_cons.mp hx with rfl | hx'
        · exact Nat.le_refl _
        · simp at hx'
      · simp
    · rename_i st' hstep
      split
      · refine ⟨?_, ?_⟩
        · intro x hx
          rcases List.mem_cons.mp hx with rfl | hx'
          · exact Nat.le_refl _
          · simp at hx'
        · simp
      · refine ⟨?_, ?_⟩
        · intro x hx
          rcases List.mem_cons.mp hx with rfl | hx'
          · exact Nat.le_refl _
          · simp at hx'
        · simp
      · rename_i nxt hnext
        have hlt := nextNode_rank cg rank hn hc st' cur nxt hnext
        obtain ⟨hbound, hnodup⟩ := ih nxt st'
        refine ⟨?_, ?_⟩
        · intro x hx
          rcases List.mem_cons.mp hx with rfl | hx'
          · exact Nat.le_refl _
          · exact Nat.le_trans (hbound x hx') (Nat.le_of_lt hlt)
        · refine List.nodup_cons.mpr ⟨?_, hnodup⟩
          intro hmem
          have := hbound cur hmem
          omega

/-- C7: with the recursion limit of twice the node count as fuel, the
loop invokes handlers at most that many times; exhausted fuel fails with
the recursion-limit error instead of continuing; and on a graph whose
compiled routing admits a rank that decreases along every registered
edge and bounds the entry below the node count (the well-formed,
cycle-free case) the run visits pairwise-distinct nodes and never trips
the limit. -/
theorem claim_C7_step_budget (chat : String → String) (w : Workflow) (cg : CompiledGraph)
    (rank : String → Nat) (st : WorkflowState)
    (_hb : build w = Except.ok cg)
    (hn : ∀ e ∈ cg.normal_edges, rank e.targetNodeID < rank e.sourceNodeID)
    (hc : ∀ q ∈ cg.condition_edges, ∀ p ∈ q.2, rank p.2 < rank q.1)
    (hentry : rank cg.entry < w.nodes.length) :
    (runVisits chat w cg (2 * w.nodes.length) cg.entry st).length ≤ 2 * w.nodes.length
    ∧ (runVisits chat w cg (2 * w.nodes.length) cg.entry st).Nodup
    ∧ runLoop chat w cg (2 * w.nodes.length) cg.entry st ≠ Except.error RunError.recursionLimit
    ∧ (∀ cur' st', runLoop chat w cg 0 cur' st' = Except.error RunError.recursionLimit) :=
  ⟨runVisits_length chat w cg _ _ _,
   (runVisits_nodup chat w cg rank hn hc _ _ _).2,
   runLoop_no_limit chat w cg rank hn hc _ _ _ (by omega),
   fun cur' st' => rfl⟩

/-- The routing structure build derives for the round-trip graph. -/
def cgRoundTrip : CompiledGraph :=
  { condition_edges := [], normal_edges := wRoundTrip.edges, entry := "start", finish := "end" }

/-- A rank showing the round-trip graph routing is cycle-free. -/
def rankRoundTrip : String → Nat :=
  fun s => if s = "start" then 2 else if s = "llm" then 1 else 0

/-- C7 witness: the budget theorem applied to the round-trip graph. -/
theorem claim_C7_witness :
    runLoop idChat wRoundTrip cgRoundTrip (2 * wRoundTrip.nodes.length) cgRoundTrip.entry stBase
      ≠ Except.error RunError.recursionLimit :=
  (claim_C7_step_budget idChat wRoundTrip cgRoundTrip rankRoundTrip stBase rfl
    (by decide) (by decide) (by decide)).2.2.1

end MxAgent
